import Mathlib

/-!
# goreexport: the command-line driver `main.go`

A shallow embedding of `main.go` of `einbert-xeride/goreexport`.  The driver is a
sequential program over an environment (flags, `GOPATH`, the file system, the Go
parser, the `go.mod` parser, the re-export generator and the output sinks).  It is
embedded as a function from a `World` (the answers of the environment) to a `Proc`
(the trace of the calls made to the environment, in order, and the way the process
ends).

Go strings are rendered as Lean `String`s; the byte-level operations of the Go
standard library that the driver uses (`strings.HasPrefix`, slicing, `path.Clean`,
`path.Join`) are rendered over the list of characters.
-/

namespace Goreexport

/-! ## Strings and paths (Go standard library) -/

/-- Go's `strings.HasPrefix(s, prefix)`. -/
def HasPrefix (s pre : String) : Bool :=
  pre.data.isPrefixOf s.data

/-- Go's `strings.HasSuffix(s, suffix)`. -/
def HasSuffix (s suf : String) : Bool :=
  suf.data.reverse.isPrefixOf s.data.reverse

/-- Go's slice expression `s[n:]`. -/
def sliceFrom (s : String) (n : Nat) : String :=
  String.mk (s.data.drop n)

/-- Go's `len(s)`. -/
def len (s : String) : Nat :=
  s.data.length

/-- The `..` case of `path.Clean` when it can backtrack: `out.w--` and then
`for out.w > dotdot && out.index(out.w) != '/' { out.w-- }`.  The buffer is kept
reversed, so its head is the last byte written. -/
def backtrack (dotdot : Nat) : List Char → List Char
  | [] => []
  | c :: rest => if dotdot < rest.length ∧ c ≠ '/' then backtrack dotdot rest else rest

/-- The main loop of Go's `path.Clean`.  `rout` is the output buffer, reversed
(`out.w = rout.length`); `dotdot` is the index where `..` must stop; `inElem` is
true while the inner loop "copy element" of the `default` case is running. -/
def cleanLoop (rooted : Bool) : List Char → List Char → Nat → Bool → List Char
  | [], rout, _, _ => rout
  | c :: rest, rout, dotdot, true =>
    -- copy element: `for ; r < n && path[r] != '/'; r++ { out.append(path[r]) }`
    if c = '/' then cleanLoop rooted rest rout dotdot false
    else cleanLoop rooted rest (c :: rout) dotdot true
  | c :: rest, rout, dotdot, false =>
    if c = '/' then
      -- empty path element
      cleanLoop rooted rest rout dotdot false
    else if c = '.' ∧ (rest = [] ∨ rest.head? = some '/') then
      -- . element
      cleanLoop rooted rest rout dotdot false
    else if c = '.' ∧ rest.head? = some '.' ∧
        (rest.tail = [] ∨ rest.tail.head? = some '/') then
      -- .. element: remove to last /
      match rest with
      | [] => rout
      | _ :: rest2 =>
        if dotdot < rout.length then
          -- can backtrack
          cleanLoop rooted rest2 (backtrack dotdot rout) dotdot false
        else if !rooted then
          -- cannot backtrack, but not rooted, so append .. element.
          let rout1 := if 0 < rout.length then '/' :: rout else rout
          let rout2 := '.' :: '.' :: rout1
          cleanLoop rooted rest2 rout2 rout2.length false
        else
          cleanLoop rooted rest2 rout dotdot false
    else
      -- real path element: add slash if needed, then copy element
      let rout1 :=
        if (rooted ∧ rout.length ≠ 1) ∨ (!rooted ∧ rout.length ≠ 0) then '/' :: rout
        else rout
      cleanLoop rooted rest (c :: rout1) dotdot true

/-- Go's `path.Clean`. -/
def pathClean (path : String) : String :=
  if path = "" then "."
  else
    let rooted := path.data.head? = some '/'
    let out :=
      if rooted then cleanLoop true (path.data.drop 1) ['/'] 1 false
      else cleanLoop false path.data [] 0 false
    -- Turn empty string into "."
    if out.length = 0 then "." else String.mk out.reverse

/-- The buffer that `path.Join` builds before cleaning it: from the first non-empty
element on, the elements separated by `/`. -/
def joinBuf : List Char → List String → List Char
  | buf, [] => buf
  | buf, e :: es =>
    if 0 < buf.length ∨ e ≠ "" then
      joinBuf ((if 0 < buf.length then buf ++ ['/'] else buf) ++ e.data) es
    else joinBuf buf es

/-- Go's `path.Join(elem...)`. -/
def pathJoin (elem : List String) : String :=
  if (elem.map len).sum = 0 then ""
  else pathClean (String.mk (joinBuf [] elem))

/-! ## Errors, events and processes -/

/-- A Go `error` value: one made by `errors.New` (or by a library), or one wrapped
by `errors.WithMessage` of `github.com/pkg/errors`. -/
inductive GoError where
  | new (msg : String)
  | withMessage (cause : GoError) (msg : String)
  deriving DecidableEq, Repr

/-- The method `Error()` of an error value. -/
def GoError.Error : GoError → String
  | .new msg => msg
  | .withMessage cause msg => msg ++ ": " ++ cause.Error

/-- A parsed package, `ast.Package`, as far as the driver looks at it; a pointer
`*ast.Package` is an `Option AstPackage`, nil being `none`. -/
structure AstPackage where
  Name : String
  deriving DecidableEq, Repr

/-- The part of `os.FileInfo` that the filter passed to `parser.ParseDir` reads. -/
structure FileInfo where
  Name : String
  IsDir : Bool
  deriving DecidableEq, Repr

/-- The type `module.Version`. -/
structure ModuleVersion where
  Path : String
  Version : String
  deriving DecidableEq, Repr

/-- The type `modfile.Module`. -/
structure Module where
  Mod : ModuleVersion
  deriving DecidableEq, Repr

/-- The part of `modfile.File` that the driver reads: the field `Module *Module`,
which is nil when the file has no module statement. -/
structure ModFile where
  Module : Option Module
  deriving DecidableEq, Repr

/-- Where `fmt.Fprintf` writes. -/
inductive Sink where
  | stdout
  | stderr
  | file (name : String)
  deriving DecidableEq, Repr

/-- A call from the driver to its environment. -/
inductive Event where
  | getenv (key : String)
  | osOpen (name : String)
  | readAll (name : String)
  | modfileParse (name : String) (data : String)
  | fileClose (name : String)
  | parseDir (dir : String)
  | generate (pkg : Option AstPackage) (importPath : String)
  | osCreate (name : String)
  | fprintf (sink : Sink) (text : String)
  deriving DecidableEq, Repr

/-- How a piece of the program ends: it returns a value, the process is ended by
`os.Exit(code)`, or it panics. -/
inductive Result (α : Type) where
  | ret (a : α)
  | exit (code : Nat)
  | panic
  deriving DecidableEq, Repr

/-- A run of a piece of the program: the calls made, in order, and how it ended. -/
structure Proc (α : Type) where
  trace : List Event
  result : Result α
  deriving DecidableEq, Repr

/-- The run `p` with the calls `t` made before it. -/
def Proc.after {α : Type} (t : List Event) (p : Proc α) : Proc α :=
  ⟨t ++ p.trace, p.result⟩

/-- Sequencing: the second part runs only if the first one returned. -/
def Proc.bind {α β : Type} (m : Proc α) (f : α → Proc β) : Proc β :=
  match m.result with
  | .ret a => (f a).after m.trace
  | .exit code => ⟨m.trace, .exit code⟩
  | .panic => ⟨m.trace, .panic⟩

instance : Monad Proc where
  pure a := ⟨[], .ret a⟩
  bind := Proc.bind

/-- A call to the environment that answers `a`. -/
def call {α : Type} (e : Event) (a : α) : Proc α :=
  ⟨[e], .ret a⟩

/-- Go's `os.Exit(code)`: the process ends at once, deferred calls do not run. -/
def osExit {α : Type} (code : Nat) : Proc α :=
  ⟨[], .exit code⟩

/-- A run-time panic. -/
def goPanic {α : Type} : Proc α :=
  ⟨[], .panic⟩

/-- A body run under `defer file.Close()`: the deferred call runs when the body
returns or panics, not when the process is ended by `os.Exit`. -/
def withDefer {α : Type} (e : Event) (body : Proc α) : Proc α :=
  match body.result with
  | .exit _ => body
  | _ => ⟨body.trace ++ [e], body.result⟩

/-- The environment of one run of the driver: the flag values left by
`flag.Parse()` and the answers of the operating system and of the libraries. -/
structure World where
  /-- value of `-dir` -/
  Directory : String
  /-- value of `-pkg` -/
  Package : String
  /-- value of `-out` -/
  Output : String
  /-- answer of `os.Getenv` -/
  Getenv : String → String
  /-- answer of `os.Open` -/
  Open : String → Except GoError Unit
  /-- answer of `ioutil.ReadAll` on the file opened at a path -/
  ReadAll : String → Except GoError String
  /-- answer of `modfile.Parse(name, data, nil)` -/
  ModfileParse : String → String → Except GoError ModFile
  /-- answer of `parser.ParseDir(fset, dir, filter, parser.AllErrors)`: the map of
  packages (as its list of entries) and the first error -/
  ParseDir : String → (FileInfo → Bool) → List (String × AstPackage) × Option GoError
  /-- answer of `reexport.New(pkg, importPath).Generate()` -/
  Generate : Option AstPackage → String → String × Option GoError
  /-- answer of `os.Create` -/
  Create : String → Except GoError Unit
  /-- answer of `fmt.Fprintf(file, "%s", text)` -/
  Fprintf : Sink → String → Option GoError

/-! ## The program -/

/-- `func GoPath() string` -/
def GoPath (w : World) : Proc String := do
  let goPath ← call (.getenv "GOPATH") (w.Getenv "GOPATH")
  if goPath = "" then
    call (.fprintf .stderr "Error: GOPATH not provided\n") ()
    osExit 255
  pure goPath

/-- `func guessPackageInGoPath(dir string) (string, error)` -/
def guessPackageInGoPath (w : World) (dir : String) : Proc (String × Option GoError) := do
  let goPath ← GoPath w
  let srcPath := pathJoin [goPath, "src"]
  if HasPrefix dir srcPath then
    let pkg := sliceFrom dir (len srcPath)
    if pkg = "" then
      pure ("", some (.new "dir is just GOPATH"))
    else
      pure (pkg, none)
  else
    pure ("", some (.new "dir not in GOPATH, and has no readable go.mod in it"))

/-- `func guessPackage(dir string) (string, error)` -/
def guessPackage (w : World) (dir : String) : Proc (String × Option GoError) := do
  let modPath := pathJoin [dir, "go.mod"]
  match ← call (.osOpen modPath) (w.Open modPath) with
  | .error _ => guessPackageInGoPath w dir
  | .ok _ =>
    withDefer (.fileClose modPath) do
      match ← call (.readAll modPath) (w.ReadAll modPath) with
      | .error _ => guessPackageInGoPath w dir
      | .ok data =>
        match ← call (.modfileParse modPath data) (w.ModfileParse modPath data) with
        | .error err => pure ("", some (.withMessage err "module file parse failed"))
        | .ok mod =>
          -- `mod.Module.Mod.Path` dereferences the pointer `mod.Module`
          match mod.Module with
          | none => goPanic
          | some m => pure (m.Mod.Path, none)

/-- The filter that `main` passes to `parser.ParseDir`. -/
def parseFilter (info : FileInfo) : Bool :=
  info.IsDir || !HasSuffix info.Name "_test.go"

/-- `func main()`, after `flag.Parse()` has set the three flag variables. -/
def main (w : World) : Proc Unit := do
  let Directory := w.Directory
  let Package := w.Package
  let Output := w.Output
  if Directory = "" ∧ Package = "" then
    call (.fprintf .stderr "Error: both -dir and -pkg are not provided\n") ()
    osExit 255
  let Directory ←
    if Directory = "" ∧ Package ≠ "" then do
      let goPath ← GoPath w
      pure (pathJoin [goPath, "src", Package])
    else pure Directory
  let Package ←
    if Directory ≠ "" ∧ Package = "" then do
      let (pkg, err) ← guessPackage w Directory
      match err with
      | some err =>
        call (.fprintf .stderr ("Error: " ++ err.Error ++ "\n")) ()
        osExit 255
      | none => pure pkg
    else pure Package
  let (pkgs, err) ← call (.parseDir Directory) (w.ParseDir Directory parseFilter)
  match err with
  | some err =>
    call (.fprintf .stderr ("Package parse failed: " ++ err.Error ++ "\n")) ()
    osExit 255
  | none => pure ()
  if pkgs.length ≠ 1 then
    call (.fprintf .stderr
      ("Error: " ++ toString pkgs.length ++ " packages in " ++ Directory ++ ", unexpected\n")) ()
    osExit 255
  -- `var pkg *ast.Package; for _, pkg = range pkgs { break }`
  let pkg : Option AstPackage := pkgs.head?.map Prod.snd
  let (out, err) ← call (.generate pkg Package) (w.Generate pkg Package)
  match err with
  | some err =>
    call (.fprintf .stderr ("Error: " ++ err.Error ++ "\n")) ()
    osExit 255
  | none => pure ()
  let file ←
    if Output ≠ "" ∧ Output ≠ "-" then do
      match ← call (.osCreate Output) (w.Create Output) with
      | .error err =>
        call (.fprintf .stderr ("Error: " ++ err.Error ++ "\n")) ()
        osExit 255
      | .ok _ => pure (Sink.file Output)
    else pure Sink.stdout
  match ← call (.fprintf file out) (w.Fprintf file out) with
  | some err =>
    call (.fprintf .stderr ("Error: " ++ err.Error ++ "\n")) ()
    osExit 255
  | none => pure ()
  -- the deferred `file.Close()` runs as `main` returns
  if Output ≠ "" ∧ Output ≠ "-" then
    call (.fileClose Output) ()

/-- The exit status of the process: 0 when `main` returns, the argument of
`os.Exit`, and 2 for a panic. -/
def exitStatus (p : Proc Unit) : Nat :=
  match p.result with
  | .ret _ => 0
  | .exit code => code
  | .panic => 2


/-- Lines 70 to 86 of `main`: the flag check and the resolution of the directory
and of the import path.  Returns the final values of `Directory` and `Package`. -/
def resolve (w : World) : Proc (String × String) := do
  let Directory := w.Directory
  let Package := w.Package
  if Directory = "" ∧ Package = "" then
    call (.fprintf .stderr "Error: both -dir and -pkg are not provided\n") ()
    osExit 255
  let Directory ←
    if Directory = "" ∧ Package ≠ "" then do
      let goPath ← GoPath w
      pure (pathJoin [goPath, "src", Package])
    else pure Directory
  let Package ←
    if Directory ≠ "" ∧ Package = "" then do
      let (pkg, err) ← guessPackage w Directory
      match err with
      | some err =>
        call (.fprintf .stderr ("Error: " ++ err.Error ++ "\n")) ()
        osExit 255
      | none => pure pkg
    else pure Package
  pure (Directory, Package)

/-- Lines 88 to 126 of `main`: parsing the directory, the generator and the
output, for the resolved `Directory` and `Package`. -/
def emit (w : World) (Directory Package : String) : Proc Unit := do
  let Output := w.Output
  let (pkgs, err) ← call (.parseDir Directory) (w.ParseDir Directory parseFilter)
  match err with
  | some err =>
    call (.fprintf .stderr ("Package parse failed: " ++ err.Error ++ "\n")) ()
    osExit 255
  | none => pure ()
  if pkgs.length ≠ 1 then
    call (.fprintf .stderr
      ("Error: " ++ toString pkgs.length ++ " packages in " ++ Directory ++ ", unexpected\n")) ()
    osExit 255
  let pkg : Option AstPackage := pkgs.head?.map Prod.snd
  let (out, err) ← call (.generate pkg Package) (w.Generate pkg Package)
  match err with
  | some err =>
    call (.fprintf .stderr ("Error: " ++ err.Error ++ "\n")) ()
    osExit 255
  | none => pure ()
  let file ←
    if Output ≠ "" ∧ Output ≠ "-" then do
      match ← call (.osCreate Output) (w.Create Output) with
      | .error err =>
        call (.fprintf .stderr ("Error: " ++ err.Error ++ "\n")) ()
        osExit 255
      | .ok _ => pure (Sink.file Output)
    else pure Sink.stdout
  match ← call (.fprintf file out) (w.Fprintf file out) with
  | some err =>
    call (.fprintf .stderr ("Error: " ++ err.Error ++ "\n")) ()
    osExit 255
  | none => pure ()
  if Output ≠ "" ∧ Output ≠ "-" then
    call (.fileClose Output) ()

/-- The event is the call to the generator. -/
def Event.isGenerate : Event → Bool
  | .generate _ _ => true
  | _ => false

/-- The event touches the output: it creates (truncates) a file, or writes to
standard output or to a file. -/
def Event.isOutput : Event → Bool
  | .osCreate _ => true
  | .fprintf .stdout _ => true
  | .fprintf (.file _) _ => true
  | _ => false

/-- The event belongs to the resolution of the directory and of the import path:
reading `GOPATH`, reading `go.mod`, or a line on standard error. -/
def Event.isResolve : Event → Bool
  | .getenv _ => true
  | .osOpen _ => true
  | .readAll _ => true
  | .modfileParse _ _ => true
  | .fileClose _ => true
  | .fprintf .stderr _ => true
  | _ => false

/-- The event reads `go.mod`: `guessPackage` starts with `os.Open` on it. -/
def Event.isGoMod : Event → Bool
  | .osOpen _ => true
  | .readAll _ => true
  | .modfileParse _ _ => true
  | _ => false

/-! ## Sample environments -/

/-- A run with `-dir /go/src/foo`, `GOPATH=/go`, no `go.mod`, one package in the
directory, a generator that succeeds and sinks that accept the text. -/
def wSample : World where
  Directory := "/go/src/foo"
  Package := ""
  Output := ""
  Getenv := fun _ => "/go"
  Open := fun _ => .error (.new "open: no such file or directory")
  ReadAll := fun _ => .ok ""
  ModfileParse := fun _ _ => .ok ⟨none⟩
  ParseDir := fun _ _ => ([("foo", ⟨"foo"⟩)], none)
  Generate := fun _ _ => ("package foo\n", none)
  Create := fun _ => .ok ()
  Fprintf := fun _ _ => none

/-- The directory holds no package. -/
def wNoPackages : World :=
  { wSample with ParseDir := fun _ _ => ([], none) }

/-- The generator fails. -/
def wGenerateFails : World :=
  { wSample with
    Output := "out.go"
    Generate := fun _ _ => ("", some (.new "unsupported signature")) }

/-- Both `-dir` and `-pkg` are given, and the directory has a `go.mod` that declares
another module path. -/
def wPkgFlag : World :=
  { wSample with
    Directory := "/work/lib"
    Package := "example.com/lib"
    Open := fun _ => .ok ()
    ReadAll := fun _ => .ok "module example.com/other\n"
    ModfileParse := fun _ _ => .ok ⟨some ⟨⟨"example.com/other", ""⟩⟩⟩ }

/-- A run with `-out -`. -/
def wOutDash : World :=
  { wSample with Output := "-" }

/-- A run with `-out out.go`. -/
def wOutFile : World :=
  { wSample with Output := "out.go" }

/-- Neither `-dir` nor `-pkg` is given. -/
def wNoFlags : World :=
  { wSample with Directory := "" }

/-- The directory has a `go.mod` whose module statement is `module ""`. -/
def wEmptyModulePath : World :=
  { wSample with
    Directory := "/work/m"
    Open := fun _ => .ok ()
    ReadAll := fun _ => .ok "module \"\"\n"
    ModfileParse := fun _ _ => .ok ⟨some ⟨⟨"", ""⟩⟩⟩ }

/-- The directory has a `go.mod` that declares `example.com/m`; `GOPATH` is not set. -/
def wGoMod : World :=
  { wSample with
    Directory := "/work/m"
    Getenv := fun _ => ""
    Open := fun _ => .ok ()
    ReadAll := fun _ => .ok "module example.com/m\n"
    ModfileParse := fun _ _ => .ok ⟨some ⟨⟨"example.com/m", ""⟩⟩⟩ }

/-- The directory has a `go.mod` that does not parse. -/
def wGoModBroken : World :=
  { wGoMod with ModfileParse := fun _ _ => .error (.new "go.mod:1: unknown directive: modul") }

/-- The directory has a `go.mod` that parses but has no module statement (its only
line is `go 1.12`), so `modfile.Parse` leaves the field `Module` nil. -/
def wNoModuleStatement : World :=
  { wGoMod with
    Getenv := fun _ => "/go"
    ReadAll := fun _ => .ok "go 1.12\n"
    ModfileParse := fun _ _ => .ok ⟨none⟩ }

/-- Whether `dir` is a path strictly beneath `srcPath`: `srcPath`, a path separator
and a non-empty remainder. -/
def strictlyBeneath (dir srcPath : String) : Bool :=
  HasPrefix dir (srcPath ++ "/") && decide (len srcPath + 1 < len dir)

/-- The event is a call to the generator that, in the environment `w`, succeeds. -/
def Event.isGenerateOk (w : World) : Event → Bool
  | .generate pkg importPath => (w.Generate pkg importPath).2.isNone
  | _ => false

/-- Check of a trace: no output event occurs before the first successful call to
the generator. -/
def outputGuarded (w : World) : List Event → Bool
  | [] => true
  | e :: es => e.isGenerateOk w || (!e.isOutput && outputGuarded w es)

/-- The sink that `main` selects from the value of `-out` (lines 113 to 115): the
file of that name unless the value is empty or `-`. -/
def outputSink (Output : String) : Sink :=
  if Output ≠ "" ∧ Output ≠ "-" then .file Output else .stdout

/-! ## Sequencing laws -/

theorem Proc.after_nil {α : Type} (p : Proc α) : p.after [] = p := by
  cases p; simp [Proc.after]

theorem Proc.bind_pure_right {α : Type} (m : Proc α) :
    m.bind (fun a => (pure a : Proc α)) = m := by
  rcases m with ⟨t, r⟩
  cases r <;> simp [Proc.bind, Proc.after, pure]

theorem Proc.bind_assoc {α β γ : Type} (m : Proc α) (f : α → Proc β) (g : β → Proc γ) :
    (m.bind f).bind g = m.bind (fun a => (f a).bind g) := by
  rcases m with ⟨t, r⟩
  cases r with
  | ret a =>
    simp only [Proc.bind, Proc.after]
    rcases hfa : (f a).result with b | c | _ <;> simp [Proc.after]
  | exit c => simp [Proc.bind]
  | panic => simp [Proc.bind]

theorem Proc.pure_bind {α β : Type} (a : α) (f : α → Proc β) :
    (pure a : Proc α).bind f = f a := by
  simp [Proc.bind, pure, Proc.after_nil]

/-- The function `main` is its two halves in sequence. -/
theorem main_eq (w : World) : main w = (resolve w).bind (fun dp => emit w dp.1 dp.2) := by
  have ite_bind : ∀ {α β : Type} (c : Prop) [Decidable c] (a b : Proc α) (f : α → Proc β),
      (if c then a else b).bind f = if c then a.bind f else b.bind f := by
    intro α β c _ a b f; split <;> rfl
  have opt_bind : ∀ {α β : Type} (o : Option GoError) (a : GoError → Proc α) (b : Proc α)
      (f : α → Proc β),
      (match o with | some e => a e | none => b).bind f
        = match o with | some e => (a e).bind f | none => b.bind f := by
    intro α β o a b f; cases o <;> rfl
  simp only [main, resolve, emit, bind, Proc.bind_assoc, Proc.pure_bind, ite_bind, opt_bind]

/-! ## Symbolic execution of the functions -/

theorem GoPath_eq (w : World) :
    GoPath w =
      if w.Getenv "GOPATH" = "" then
        ⟨[.getenv "GOPATH", .fprintf .stderr "Error: GOPATH not provided\n"], .exit 255⟩
      else ⟨[.getenv "GOPATH"], .ret (w.Getenv "GOPATH")⟩ := by
  by_cases h : w.Getenv "GOPATH" = "" <;>
    simp [GoPath, bind, Proc.bind, Proc.after, call, osExit, pure, h]

theorem guessPackageInGoPath_eq (w : World) (dir : String) :
    guessPackageInGoPath w dir =
      if w.Getenv "GOPATH" = "" then
        ⟨[.getenv "GOPATH", .fprintf .stderr "Error: GOPATH not provided\n"], .exit 255⟩
      else if HasPrefix dir (pathJoin [w.Getenv "GOPATH", "src"]) then
        if sliceFrom dir (len (pathJoin [w.Getenv "GOPATH", "src"])) = "" then
          ⟨[.getenv "GOPATH"], .ret ("", some (.new "dir is just GOPATH"))⟩
        else
          ⟨[.getenv "GOPATH"],
            .ret (sliceFrom dir (len (pathJoin [w.Getenv "GOPATH", "src"])), none)⟩
      else
        ⟨[.getenv "GOPATH"],
          .ret ("", some (.new "dir not in GOPATH, and has no readable go.mod in it"))⟩ := by
  unfold guessPackageInGoPath
  rw [GoPath_eq]
  by_cases h : w.Getenv "GOPATH" = ""
  · simp [bind, Proc.bind, h]
  · by_cases h1 : HasPrefix dir (pathJoin [w.Getenv "GOPATH", "src"])
    · by_cases h2 : sliceFrom dir (len (pathJoin [w.Getenv "GOPATH", "src"])) = "" <;>
        simp [bind, Proc.bind, Proc.after, pure, h, h1, h2]
    · simp [bind, Proc.bind, Proc.after, pure, h, h1]

theorem guessPackage_eq (w : World) (dir : String) :
    guessPackage w dir =
      match w.Open (pathJoin [dir, "go.mod"]) with
      | .error _ => (guessPackageInGoPath w dir).after [.osOpen (pathJoin [dir, "go.mod"])]
      | .ok _ =>
        match w.ReadAll (pathJoin [dir, "go.mod"]) with
        | .error _ =>
          withDefer (.fileClose (pathJoin [dir, "go.mod"]))
            ((guessPackageInGoPath w dir).after
              [.osOpen (pathJoin [dir, "go.mod"]), .readAll (pathJoin [dir, "go.mod"])])
        | .ok data =>
          match w.ModfileParse (pathJoin [dir, "go.mod"]) data with
          | .error err =>
            ⟨[.osOpen (pathJoin [dir, "go.mod"]), .readAll (pathJoin [dir, "go.mod"]),
              .modfileParse (pathJoin [dir, "go.mod"]) data,
              .fileClose (pathJoin [dir, "go.mod"])],
             .ret ("", some (.withMessage err "module file parse failed"))⟩
          | .ok mod =>
            match mod.Module with
            | none =>
              ⟨[.osOpen (pathJoin [dir, "go.mod"]), .readAll (pathJoin [dir, "go.mod"]),
                .modfileParse (pathJoin [dir, "go.mod"]) data,
                .fileClose (pathJoin [dir, "go.mod"])], .panic⟩
            | some m =>
              ⟨[.osOpen (pathJoin [dir, "go.mod"]), .readAll (pathJoin [dir, "go.mod"]),
                .modfileParse (pathJoin [dir, "go.mod"]) data,
                .fileClose (pathJoin [dir, "go.mod"])], .ret (m.Mod.Path, none)⟩ := by
  unfold guessPackage
  rcases ho : w.Open (pathJoin [dir, "go.mod"]) with e | u
  · simp [bind, Proc.bind, call, Proc.after, ho]
  · rcases hr : w.ReadAll (pathJoin [dir, "go.mod"]) with e | data
    · rcases hg : guessPackageInGoPath w dir with ⟨t, r⟩
      cases r <;> simp [bind, Proc.bind, call, Proc.after, withDefer, ho, hr, hg]
    · rcases hp : w.ModfileParse (pathJoin [dir, "go.mod"]) data with e | mod
      · simp [bind, Proc.bind, call, Proc.after, withDefer, ho, hr, hp, pure]
      · rcases hm : mod.Module with _ | m <;>
          simp [bind, Proc.bind, call, Proc.after, withDefer, ho, hr, hp, hm, pure, goPanic]

theorem resolve_eq (w : World) :
    resolve w =
      if w.Directory = "" ∧ w.Package = "" then
        ⟨[.fprintf .stderr "Error: both -dir and -pkg are not provided\n"], .exit 255⟩
      else if w.Directory = "" then
        if w.Getenv "GOPATH" = "" then
          ⟨[.getenv "GOPATH", .fprintf .stderr "Error: GOPATH not provided\n"], .exit 255⟩
        else
          ⟨[.getenv "GOPATH"], .ret (pathJoin [w.Getenv "GOPATH", "src", w.Package], w.Package)⟩
      else if w.Package = "" then
        match (guessPackage w w.Directory).result with
        | .ret (_, some err) =>
          ⟨(guessPackage w w.Directory).trace ++
            [.fprintf .stderr ("Error: " ++ err.Error ++ "\n")], .exit 255⟩
        | .ret (pkg, none) => ⟨(guessPackage w w.Directory).trace, .ret (w.Directory, pkg)⟩
        | .exit code => ⟨(guessPackage w w.Directory).trace, .exit code⟩
        | .panic => ⟨(guessPackage w w.Directory).trace, .panic⟩
      else ⟨[], .ret (w.Directory, w.Package)⟩ := by
  unfold resolve
  by_cases hd : w.Directory = ""
  · by_cases hp : w.Package = ""
    · simp [bind, Proc.bind, Proc.after, call, osExit, hd, hp]
    · rw [GoPath_eq]
      by_cases hg : w.Getenv "GOPATH" = "" <;>
        simp [bind, Proc.bind, Proc.after, pure, hd, hp, hg]
  · by_cases hp : w.Package = ""
    · rcases hg : guessPackage w w.Directory with ⟨t, r⟩
      rcases r with ⟨pkg, _ | err⟩ | code | _ <;>
        simp [bind, Proc.bind, Proc.after, call, osExit, pure, hd, hp, hg]
    · simp [bind, Proc.bind, Proc.after, pure, hd, hp]

theorem emit_eq (w : World) (Directory Package : String) :
    emit w Directory Package =
      match w.ParseDir Directory parseFilter with
      | (_, some err) =>
        ⟨[.parseDir Directory,
          .fprintf .stderr ("Package parse failed: " ++ err.Error ++ "\n")], .exit 255⟩
      | (pkgs, none) =>
        if pkgs.length ≠ 1 then
          ⟨[.parseDir Directory,
            .fprintf .stderr ("Error: " ++ toString pkgs.length ++ " packages in " ++
              Directory ++ ", unexpected\n")], .exit 255⟩
        else
          match w.Generate (pkgs.head?.map Prod.snd) Package with
          | (_, some err) =>
            ⟨[.parseDir Directory, .generate (pkgs.head?.map Prod.snd) Package,
              .fprintf .stderr ("Error: " ++ err.Error ++ "\n")], .exit 255⟩
          | (out, none) =>
            if w.Output ≠ "" ∧ w.Output ≠ "-" then
              match w.Create w.Output with
              | .error err =>
                ⟨[.parseDir Directory, .generate (pkgs.head?.map Prod.snd) Package,
                  .osCreate w.Output,
                  .fprintf .stderr ("Error: " ++ err.Error ++ "\n")], .exit 255⟩
              | .ok _ =>
                match w.Fprintf (.file w.Output) out with
                | some err =>
                  ⟨[.parseDir Directory, .generate (pkgs.head?.map Prod.snd) Package,
                    .osCreate w.Output, .fprintf (.file w.Output) out,
                    .fprintf .stderr ("Error: " ++ err.Error ++ "\n")], .exit 255⟩
                | none =>
                  ⟨[.parseDir Directory, .generate (pkgs.head?.map Prod.snd) Package,
                    .osCreate w.Output, .fprintf (.file w.Output) out,
                    .fileClose w.Output], .ret ()⟩
            else
              match w.Fprintf .stdout out with
              | some err =>
                ⟨[.parseDir Directory, .generate (pkgs.head?.map Prod.snd) Package,
                  .fprintf .stdout out,
                  .fprintf .stderr ("Error: " ++ err.Error ++ "\n")], .exit 255⟩
              | none =>
                ⟨[.parseDir Directory, .generate (pkgs.head?.map Prod.snd) Package,
                  .fprintf .stdout out], .ret ()⟩ := by
  unfold emit
  rcases hp : w.ParseDir Directory parseFilter with ⟨pkgs, _ | perr⟩
  · by_cases hl : pkgs.length = 1
    · rcases hg : w.Generate (pkgs.head?.map Prod.snd) Package with ⟨out, _ | gerr⟩
      · by_cases ho : w.Output ≠ "" ∧ w.Output ≠ "-"
        · rcases hc : w.Create w.Output with cerr | u
          · simp [bind, Proc.bind, Proc.after, call, osExit, pure, hp, hl, hg, ho, hc]
          · rcases hf : w.Fprintf (.file w.Output) out with _ | ferr <;>
              simp [bind, Proc.bind, Proc.after, call, osExit, pure, hp, hl, hg, ho, hc, hf]
        · rcases hf : w.Fprintf .stdout out with _ | ferr <;>
            simp [bind, Proc.bind, Proc.after, call, osExit, pure, hp, hl, hg, ho, hf]
      · simp [bind, Proc.bind, Proc.after, call, osExit, pure, hp, hl, hg]
    · simp [bind, Proc.bind, Proc.after, call, osExit, pure, hp, hl]
  · simp [bind, Proc.bind, Proc.after, call, osExit, pure, hp]

/-! ## The shape of a run of `main` -/

theorem guessPackageInGoPath_trace (w : World) (dir : String) :
    ∀ e ∈ (guessPackageInGoPath w dir).trace, e.isResolve = true ∧ e.isGoMod = false := by
  rw [guessPackageInGoPath_eq]
  intro e he
  split at he
  · simp at he
    rcases he with rfl | rfl <;> simp [Event.isResolve, Event.isGoMod]
  · split at he
    · split at he <;> simp at he <;> subst he <;> simp [Event.isResolve, Event.isGoMod]
    · simp at he
      subst he
      simp [Event.isResolve, Event.isGoMod]

theorem withDefer_trace {α : Type} (e : Event) (body : Proc α) :
    ∀ x ∈ (withDefer e body).trace, x ∈ body.trace ∨ x = e := by
  intro x hx
  unfold withDefer at hx
  split at hx
  · exact Or.inl hx
  · simpa using hx

theorem guessPackage_trace (w : World) (dir : String) :
    ∀ e ∈ (guessPackage w dir).trace, e.isResolve = true := by
  rw [guessPackage_eq]
  intro e he
  split at he
  · simp [Proc.after] at he
    rcases he with rfl | he
    · rfl
    · exact (guessPackageInGoPath_trace w dir e he).1
  · split at he
    · rcases withDefer_trace _ _ e he with h | rfl
      · simp [Proc.after] at h
        rcases h with rfl | rfl | h
        · rfl
        · rfl
        · exact (guessPackageInGoPath_trace w dir e h).1
      · rfl
    · split at he
      · simp at he
        rcases he with rfl | rfl | rfl | rfl <;> rfl
      · split at he <;> simp at he <;> rcases he with rfl | rfl | rfl | rfl <;> rfl

theorem resolve_trace (w : World) : ∀ e ∈ (resolve w).trace, e.isResolve = true := by
  rw [resolve_eq]
  intro e he
  split at he
  · simp at he; subst he; rfl
  · split at he
    · split at he
      · simp at he; rcases he with rfl | rfl <;> rfl
      · simp at he; subst he; rfl
    · split at he
      · split at he
        · simp at he
          rcases he with he | rfl
          · exact guessPackage_trace w _ e he
          · rfl
        · exact guessPackage_trace w _ e he
        · exact guessPackage_trace w _ e he
        · exact guessPackage_trace w _ e he
      · simp at he

theorem main_of_resolve_ret (w : World) (t : List Event) (Directory Package : String)
    (h : resolve w = ⟨t, .ret (Directory, Package)⟩) :
    main w = (emit w Directory Package).after t := by
  rw [main_eq, h]; rfl

theorem main_of_resolve_exit (w : World) (t : List Event) (code : Nat)
    (h : resolve w = ⟨t, .exit code⟩) : main w = ⟨t, .exit code⟩ := by
  rw [main_eq, h]; rfl

theorem main_of_resolve_panic (w : World) (t : List Event)
    (h : resolve w = ⟨t, .panic⟩) : main w = ⟨t, .panic⟩ := by
  rw [main_eq, h]; rfl

theorem emit_parseDir_mem (w : World) (Directory Package dir : String) :
    Event.parseDir dir ∈ (emit w Directory Package).trace ↔ dir = Directory := by
  rw [emit_eq]
  repeat' split
  all_goals simp

theorem emit_single_package (w : World) (Directory Package : String)
    (pkg : Option AstPackage) (ip : String)
    (h : Event.generate pkg ip ∈ (emit w Directory Package).trace) :
    ip = Package ∧ ∃ entry, w.ParseDir Directory parseFilter = ([entry], none) ∧
      pkg = some entry.2 := by
  rw [emit_eq] at h
  rcases hp : w.ParseDir Directory parseFilter with ⟨pkgs, _ | perr⟩
  · rw [hp] at h
    by_cases hl : pkgs.length = 1
    · obtain ⟨entry, rfl⟩ := List.length_eq_one.mp hl
      simp only [List.length_singleton, ne_eq, not_true_eq_false, if_false] at h
      refine ⟨?_, entry, rfl, ?_⟩
      all_goals
        repeat' split at h
        all_goals simp at h
        all_goals simp [h]
    · simp [hl] at h
  · rw [hp] at h
    simp at h

theorem Event.isResolve_excludes (e : Event) (h : e.isResolve = true) :
    e.isGenerate = false ∧ e.isOutput = false := by
  cases e with
  | fprintf sink text => cases sink <;> simp_all [Event.isResolve, Event.isGenerate, Event.isOutput]
  | _ => simp_all [Event.isResolve, Event.isGenerate, Event.isOutput]

theorem not_mem_of_isResolve {t : List Event} (ht : ∀ e ∈ t, e.isResolve = true)
    {e : Event} (he : e.isResolve = false) : e ∉ t := by
  intro hmem
  rw [ht e hmem] at he
  exact Bool.noConfusion he

theorem emit_count_ne_one (w : World) (Directory Package : String)
    (hn : (w.ParseDir Directory parseFilter).1.length ≠ 1) :
    (emit w Directory Package).result = .exit 255 ∧
    (∃ text, (emit w Directory Package).trace.getLast? = some (.fprintf .stderr text)) ∧
    (∀ e ∈ (emit w Directory Package).trace, e.isGenerate = false ∧ e.isOutput = false) := by
  rw [emit_eq]
  rcases hp : w.ParseDir Directory parseFilter with ⟨pkgs, _ | perr⟩
  · rw [hp] at hn
    simp at hn
    simp [hn, Event.isGenerate, Event.isOutput]
  · simp [Event.isGenerate, Event.isOutput]

theorem outputGuarded_split (w : World) :
    ∀ (l pre : List Event) (e : Event) (post : List Event),
      outputGuarded w l = true → l = pre ++ e :: post → e.isOutput = true →
      ∃ pkg ip, Event.generate pkg ip ∈ pre ∧ (w.Generate pkg ip).2 = none := by
  intro l
  induction l with
  | nil => intro pre e post _ h; simp at h
  | cons x xs ih =>
    intro pre e post hg h he
    cases pre with
    | nil =>
      simp only [List.nil_append, List.cons.injEq] at h
      obtain ⟨rfl, -⟩ := h
      simp only [outputGuarded, he, Bool.not_true, Bool.false_and, Bool.or_false] at hg
      cases x <;> simp [Event.isGenerateOk, Event.isOutput] at hg he
    | cons p pre =>
      simp only [List.cons_append, List.cons.injEq] at h
      obtain ⟨rfl, h⟩ := h
      simp only [outputGuarded, Bool.or_eq_true, Bool.and_eq_true] at hg
      rcases hg with hg | ⟨-, hg⟩
      · cases x <;> simp [Event.isGenerateOk] at hg
        exact ⟨_, _, List.mem_cons_self _ _, hg⟩
      · obtain ⟨pkg, ip, hmem, hok⟩ := ih pre e post hg h he
        exact ⟨pkg, ip, List.mem_cons_of_mem _ hmem, hok⟩

theorem outputGuarded_append (w : World) (t l : List Event)
    (ht : ∀ e ∈ t, e.isResolve = true) (hl : outputGuarded w l = true) :
    outputGuarded w (t ++ l) = true := by
  induction t with
  | nil => simpa using hl
  | cons x xs ih =>
    have hx := Event.isResolve_excludes x (ht x (List.mem_cons_self _ _))
    have := ih (fun e he => ht e (List.mem_cons_of_mem _ he))
    simp [outputGuarded, hx.2, this]

theorem outputGuarded_of_isResolve (w : World) (t : List Event)
    (ht : ∀ e ∈ t, e.isResolve = true) : outputGuarded w t = true := by
  simpa using outputGuarded_append w t [] ht rfl

theorem emit_outputGuarded (w : World) (Directory Package : String) :
    outputGuarded w (emit w Directory Package).trace = true := by
  rw [emit_eq]
  rcases hp : w.ParseDir Directory parseFilter with ⟨pkgs, _ | perr⟩
  · by_cases hl : pkgs.length = 1
    · rcases hg : w.Generate (pkgs.head?.map Prod.snd) Package with ⟨out, _ | gerr⟩
      · simp only [hl, ne_eq, not_true_eq_false, if_false]
        repeat' split
        all_goals simp [outputGuarded, Event.isGenerateOk, Event.isOutput, hg]
      · simp [hl, outputGuarded, Event.isGenerateOk, Event.isOutput, hg]
    · simp [hl, outputGuarded, Event.isGenerateOk, Event.isOutput]
  · simp [outputGuarded, Event.isGenerateOk, Event.isOutput]

theorem emit_generate_fails (w : World) (Directory Package : String)
    (pkg : Option AstPackage) (ip : String) (err : GoError)
    (h : Event.generate pkg ip ∈ (emit w Directory Package).trace)
    (he : (w.Generate pkg ip).2 = some err) :
    (emit w Directory Package).result = .exit 255 ∧
    (emit w Directory Package).trace.getLast? =
      some (.fprintf .stderr ("Error: " ++ err.Error ++ "\n")) ∧
    (∀ e ∈ (emit w Directory Package).trace, e.isOutput = false) := by
  obtain ⟨rfl, entry, hp, rfl⟩ := emit_single_package w Directory Package pkg ip h
  rw [emit_eq, hp]
  rcases hg : w.Generate (some entry.2) ip with ⟨out, gerr⟩
  rw [hg] at he
  simp only at he
  subst he
  simp [hg, Event.isOutput]

theorem emit_no_goMod (w : World) (Directory Package : String) :
    ∀ e ∈ (emit w Directory Package).trace, e.isGoMod = false := by
  rw [emit_eq]
  repeat' split
  all_goals simp [Event.isGoMod]

theorem emit_head (w : World) (Directory Package : String) :
    (emit w Directory Package).trace.head? = some (.parseDir Directory) := by
  rw [emit_eq]
  repeat' split
  all_goals simp

theorem main_trace_append (w : World) :
    ∃ rest, (main w).trace = (resolve w).trace ++ rest ∧
      (rest = [] ∨ ∃ Directory Package, (resolve w).result = .ret (Directory, Package) ∧
        rest = (emit w Directory Package).trace) := by
  rcases hres : resolve w with ⟨t, r⟩
  rcases r with ⟨Directory, Package⟩ | code | _
  · rw [main_of_resolve_ret w t Directory Package hres]
    exact ⟨_, rfl, Or.inr ⟨Directory, Package, rfl, rfl⟩⟩
  · rw [main_of_resolve_exit w t code hres]
    exact ⟨[], by simp, Or.inl rfl⟩
  · rw [main_of_resolve_panic w t hres]
    exact ⟨[], by simp, Or.inl rfl⟩

theorem guessPackage_head (w : World) (dir : String) :
    ∃ rest, (guessPackage w dir).trace = .osOpen (pathJoin [dir, "go.mod"]) :: rest := by
  rw [guessPackage_eq]
  split
  · exact ⟨_, rfl⟩
  · split
    · unfold withDefer
      split
      · exact ⟨_, rfl⟩
      · exact ⟨_, rfl⟩
    · split
      · exact ⟨_, rfl⟩
      · split <;> exact ⟨_, rfl⟩

theorem emit_output (w : World) (Directory Package : String) :
    (∀ sink text, Event.fprintf sink text ∈ (emit w Directory Package).trace →
      sink ≠ .stderr →
        sink = outputSink w.Output ∧
        ∃ pkg ip, Event.generate pkg ip ∈ (emit w Directory Package).trace ∧
          w.Generate pkg ip = (text, none)) ∧
    ((emit w Directory Package).result = .ret () →
      ∃ pkg ip, Event.generate pkg ip ∈ (emit w Directory Package).trace ∧
        (w.Generate pkg ip).2 = none ∧
        Event.fprintf (outputSink w.Output) (w.Generate pkg ip).1 ∈
          (emit w Directory Package).trace) ∧
    (∀ name, Event.osCreate name ∈ (emit w Directory Package).trace →
      name = w.Output ∧ outputSink w.Output = .file name) := by
  rw [emit_eq]
  rcases hp : w.ParseDir Directory parseFilter with ⟨pkgs, _ | perr⟩
  · by_cases hl : pkgs.length = 1
    · rcases hg : w.Generate (pkgs.head?.map Prod.snd) Package with ⟨out, _ | gerr⟩
      · by_cases ho : w.Output ≠ "" ∧ w.Output ≠ "-"
        · rcases hc : w.Create w.Output with cerr | u
          · simp [hl, ho, outputSink, hg, hc]
          · rcases hf : w.Fprintf (.file w.Output) out with _ | ferr
            · simp [hl, ho, outputSink, hg, hc, hf]
              exact ⟨⟨_, _, ⟨rfl, rfl⟩, hg⟩, ⟨_, _, ⟨rfl, rfl⟩, by simp [hg], by simp [hg]⟩⟩
            · simp [hl, ho, outputSink, hg, hc, hf]
              rintro sink text (⟨rfl, rfl⟩ | ⟨rfl, rfl⟩) hs
              · exact ⟨rfl, _, _, ⟨rfl, rfl⟩, hg⟩
              · exact absurd rfl hs
        · rcases hf : w.Fprintf .stdout out with _ | ferr
          · simp [hl, ho, outputSink, hg, hf]
            exact ⟨⟨_, _, ⟨rfl, rfl⟩, hg⟩, ⟨_, _, ⟨rfl, rfl⟩, by simp [hg], by simp [hg]⟩⟩
          · simp [hl, ho, outputSink, hg, hf]
            rintro sink text (⟨rfl, rfl⟩ | ⟨rfl, rfl⟩) hs
            · exact ⟨rfl, _, _, ⟨rfl, rfl⟩, hg⟩
            · exact absurd rfl hs
      · simp [hl, hg]
    · simp [hl]
  · simp

theorem emit_file_write_created (w : World) (Directory Package : String) :
    ∀ name text, Event.fprintf (.file name) text ∈ (emit w Directory Package).trace →
      Event.osCreate name ∈ (emit w Directory Package).trace := by
  rw [emit_eq]
  rcases hp : w.ParseDir Directory parseFilter with ⟨pkgs, _ | perr⟩
  · by_cases hl : pkgs.length = 1
    · rcases hg : w.Generate (pkgs.head?.map Prod.snd) Package with ⟨out, _ | gerr⟩
      · by_cases ho : w.Output ≠ "" ∧ w.Output ≠ "-"
        · rcases hc : w.Create w.Output with cerr | u
          · simp [hl, ho, hg, hc]
          · rcases hf : w.Fprintf (.file w.Output) out with _ | ferr <;>
              simp [hl, ho, hg, hc, hf]
        · rcases hf : w.Fprintf .stdout out with _ | ferr <;>
            simp [hl, ho, hg, hf]
      · simp [hl, hg]
    · simp [hl]
  · simp

/-! ## What `guessPackageInGoPath` and `guessPackage` return -/

/-- `guessPackageInGoPath` returns a package path with a nil error exactly when
`GOPATH` is set, `srcPath` is a string prefix of `dir`, and the rest of `dir` is not
empty; the path returned is that rest. -/
theorem guessPackageInGoPath_ret_iff (w : World) (dir p : String) :
    (guessPackageInGoPath w dir).result = .ret (p, none) ↔
      w.Getenv "GOPATH" ≠ "" ∧
      HasPrefix dir (pathJoin [w.Getenv "GOPATH", "src"]) = true ∧
      p = sliceFrom dir (len (pathJoin [w.Getenv "GOPATH", "src"])) ∧ p ≠ "" := by
  rw [guessPackageInGoPath_eq]
  by_cases hg : w.Getenv "GOPATH" = ""
  · simp [hg]
  · by_cases h1 : HasPrefix dir (pathJoin [w.Getenv "GOPATH", "src"]) = true
    · by_cases h2 : sliceFrom dir (len (pathJoin [w.Getenv "GOPATH", "src"])) = ""
      · simp only [hg, h1, h2, if_true, if_false]
        constructor
        · intro h; simp at h
        · rintro ⟨-, -, rfl, h⟩; exact absurd rfl h
      · simp only [hg, h1, h2, if_true, if_false]
        constructor
        · intro h
          simp only [Result.ret.injEq, Prod.mk.injEq, and_true] at h
          subst h
          exact ⟨hg, trivial, rfl, h2⟩
        · rintro ⟨-, -, rfl, -⟩; rfl
    · simp [hg, h1]

/-- `guessPackageInGoPath` never returns the empty string with a nil error. -/
theorem guessPackageInGoPath_nonempty (w : World) (dir p : String)
    (h : (guessPackageInGoPath w dir).result = .ret (p, none)) : p ≠ "" :=
  ((guessPackageInGoPath_ret_iff w dir p).mp h).2.2.2

/-- When the directory that `path.Join` builds from `GOPATH`, `src` and `p` is
`srcPath`, a separator and `p` (no cleaning needed), `guessPackageInGoPath` returns
`p` with the separator in front. -/
theorem guessPackageInGoPath_of_join (w : World) (p : String)
    (hg : w.Getenv "GOPATH" ≠ "")
    (hj : pathJoin [w.Getenv "GOPATH", "src", p]
      = pathJoin [w.Getenv "GOPATH", "src"] ++ "/" ++ p) :
    (guessPackageInGoPath w (pathJoin [w.Getenv "GOPATH", "src", p])).result
      = .ret ("/" ++ p, none) := by
  rw [guessPackageInGoPath_ret_iff, hj]
  refine ⟨hg, ?_, ?_, ?_⟩
  · simp [HasPrefix, String.append_assoc]
  · apply String.ext
    simp [sliceFrom, len, String.append_assoc]
  · intro h
    have := congrArg String.length h
    simp at this
    exact absurd this.1 (by decide)

/-- The empty string is returned with a nil error by `guessPackage` only from a
`go.mod` whose module statement declares the empty path. -/
theorem guessPackage_empty_only_from_module (w : World) (dir : String)
    (h : (guessPackage w dir).result = .ret ("", none)) :
    ∃ data mod m, w.ReadAll (pathJoin [dir, "go.mod"]) = .ok data ∧
      w.ModfileParse (pathJoin [dir, "go.mod"]) data = .ok mod ∧
      mod.Module = some m ∧ m.Mod.Path = "" := by
  rw [guessPackage_eq] at h
  rcases ho : w.Open (pathJoin [dir, "go.mod"]) with e | u
  · simp only [ho, Proc.after] at h
    exact absurd rfl (guessPackageInGoPath_nonempty w dir "" h)
  · rcases hr : w.ReadAll (pathJoin [dir, "go.mod"]) with e | data
    · simp only [ho, hr] at h
      unfold withDefer at h
      split at h
      · simp only [Proc.after] at h
        exact absurd rfl (guessPackageInGoPath_nonempty w dir "" h)
      · simp only [Proc.after] at h
        exact absurd rfl (guessPackageInGoPath_nonempty w dir "" h)
    · rcases hp : w.ModfileParse (pathJoin [dir, "go.mod"]) data with e | mod
      · simp [ho, hr, hp] at h
      · rcases hm : mod.Module with _ | m
        · simp [ho, hr, hp, hm] at h
        · simp [ho, hr, hp, hm] at h
          exact ⟨data, mod, m, rfl, hp, hm, h⟩

/-- A `go.mod` that parses but has no module statement makes `guessPackage` panic on
`mod.Module.Mod.Path`. -/
theorem guessPackage_no_module_statement (w : World) (dir data : String) (mod : ModFile)
    (ho : w.Open (pathJoin [dir, "go.mod"]) = .ok ())
    (hr : w.ReadAll (pathJoin [dir, "go.mod"]) = .ok data)
    (hp : w.ModfileParse (pathJoin [dir, "go.mod"]) data = .ok mod)
    (hm : mod.Module = none) :
    (guessPackage w dir).result = .panic := by
  rw [guessPackage_eq]; simp [ho, hr, hp, hm]

/-- The generator is called with the empty import path only when `-pkg` is empty,
`-dir` is given, and the `go.mod` of the directory declares the empty module path. -/
theorem main_empty_import_path_only_from_module (w : World) (pkg : Option AstPackage)
    (h : Event.generate pkg "" ∈ (main w).trace) :
    w.Package = "" ∧ w.Directory ≠ "" ∧
    ∃ data mod m, w.ReadAll (pathJoin [w.Directory, "go.mod"]) = .ok data ∧
      w.ModfileParse (pathJoin [w.Directory, "go.mod"]) data = .ok mod ∧
      mod.Module = some m ∧ m.Mod.Path = "" := by
  have ht := resolve_trace w
  have hr := resolve_eq w
  rcases hres : resolve w with ⟨t, r⟩
  rw [hres] at ht hr
  simp only at ht
  rcases r with ⟨Directory, Package⟩ | code | _
  · rw [main_of_resolve_ret w t Directory Package hres] at h
    simp only [Proc.after, List.mem_append] at h
    rcases h with h | h
    · exact absurd h (not_mem_of_isResolve ht rfl)
    · have hP : Package = "" := (emit_single_package w _ _ pkg "" h).1.symm
      subst hP
      by_cases hd : w.Directory = ""
      · by_cases hp : w.Package = ""
        · simp [hd, hp] at hr
        · by_cases hg : w.Getenv "GOPATH" = ""
          · simp [hd, hp, hg] at hr
          · simp [hd, hp, hg] at hr
            exact absurd hr.2.2.symm hp
      · by_cases hp : w.Package = ""
        · refine ⟨hp, hd, ?_⟩
          apply guessPackage_empty_only_from_module
          simp only [hd, hp, false_and, and_true, if_false, if_true] at hr
          rcases hgp : (guessPackage w w.Directory).result with ⟨q, _ | err⟩ | code | _
          · rw [hgp] at hr
            simp only [Proc.mk.injEq, Result.ret.injEq, Prod.mk.injEq] at hr
            rw [hr.2.2]
          · rw [hgp] at hr; simp at hr
          · rw [hgp] at hr; simp at hr
          · rw [hgp] at hr; simp at hr
        · simp [hd, hp] at hr
          exact absurd hr.2.2.symm hp
  · rw [main_of_resolve_exit w t code hres] at h
    exact absurd h (not_mem_of_isResolve ht rfl)
  · rw [main_of_resolve_panic w t hres] at h
    exact absurd h (not_mem_of_isResolve ht rfl)

/-- With `-pkg` given, the run does not depend on what `go.mod` holds. -/
theorem main_without_goMod (w : World) (h : w.Package ≠ "")
    (osOpen : String → Except GoError Unit) (readAll : String → Except GoError String)
    (modfileParse : String → String → Except GoError ModFile) :
    main { w with Open := osOpen, ReadAll := readAll, ModfileParse := modfileParse }
      = main w := by
  have hres :
      resolve { w with Open := osOpen, ReadAll := readAll, ModfileParse := modfileParse }
        = resolve w := by
    rw [resolve_eq, resolve_eq]
    simp [h]
  rw [main_eq, main_eq, hres]
  rfl

/-! ## The claims -/

/-- C1. `main` calls the generator only when `parser.ParseDir` answered exactly one
package (and no error), and passes it that package; and whenever the directory is
parsed and the number of packages is not 1, `main` ends with exit status 255, its last
action being a line on standard error, without calling the generator and without
creating or writing any output. -/
theorem main_generates_only_for_single_package (w : World) :
    (∀ pkg ip, Event.generate pkg ip ∈ (main w).trace →
      ∃ dir entry, Event.parseDir dir ∈ (main w).trace ∧
        w.ParseDir dir parseFilter = ([entry], none) ∧ pkg = some entry.2) ∧
    (∀ dir, Event.parseDir dir ∈ (main w).trace →
      (w.ParseDir dir parseFilter).1.length ≠ 1 →
        (main w).result = .exit 255 ∧ exitStatus (main w) = 255 ∧
        (∃ text, (main w).trace.getLast? = some (.fprintf .stderr text)) ∧
        (∀ e ∈ (main w).trace, e.isGenerate = false ∧ e.isOutput = false)) := by
  have ht := resolve_trace w
  rcases hres : resolve w with ⟨t, r⟩
  rw [hres] at ht
  simp only at ht
  rcases r with ⟨Directory, Package⟩ | code | _
  · rw [main_of_resolve_ret w t Directory Package hres]
    simp only [Proc.after, List.mem_append]
    constructor
    · intro pkg ip h
      rcases h with h | h
      · exact absurd h (not_mem_of_isResolve ht rfl)
      · obtain ⟨-, entry, h1, h2⟩ := emit_single_package w Directory Package pkg ip h
        exact ⟨Directory, entry, Or.inr ((emit_parseDir_mem w _ _ _).mpr rfl), h1, h2⟩
    · intro dir h hn
      rcases h with h | h
      · exact absurd h (not_mem_of_isResolve ht rfl)
      · rw [(emit_parseDir_mem w _ _ _).mp h] at hn
        obtain ⟨h1, ⟨text, h2⟩, h3⟩ := emit_count_ne_one w Directory Package hn
        refine ⟨h1, ?_, ⟨text, ?_⟩, ?_⟩
        · simp [exitStatus, h1]
        · rw [List.getLast?_append, h2]; rfl
        · intro e he
          rcases he with he | he
          · exact Event.isResolve_excludes e (ht e he)
          · exact h3 e he
  · rw [main_of_resolve_exit w t code hres]
    constructor
    · intro pkg ip h
      exact absurd h (not_mem_of_isResolve ht rfl)
    · intro dir h
      exact absurd h (not_mem_of_isResolve ht rfl)
  · rw [main_of_resolve_panic w t hres]
    constructor
    · intro pkg ip h
      exact absurd h (not_mem_of_isResolve ht rfl)
    · intro dir h
      exact absurd h (not_mem_of_isResolve ht rfl)

theorem main_generates_only_for_single_package_witness :
    (main wNoPackages).result = .exit 255 ∧ exitStatus (main wNoPackages) = 255 ∧
    (∃ text, (main wNoPackages).trace.getLast? = some (.fprintf .stderr text)) ∧
    (∀ e ∈ (main wNoPackages).trace, e.isGenerate = false ∧ e.isOutput = false) :=
  (main_generates_only_for_single_package wNoPackages).2 "/go/src/foo"
    (by decide) (by decide)

/-- C3. When the call to the generator answers an error, `main` ends with exit status
255, its last action being the line `Error: <error>` on standard error, and its trace
holds no output event (no `os.Create`, no write to standard output or to a file).  And
in every run, an output event is preceded by a call to the generator that succeeded. -/
theorem generator_failure_writes_nothing (w : World) :
    (∀ pkg ip err, Event.generate pkg ip ∈ (main w).trace →
      (w.Generate pkg ip).2 = some err →
        (main w).result = .exit 255 ∧ exitStatus (main w) = 255 ∧
        (main w).trace.getLast? = some (.fprintf .stderr ("Error: " ++ err.Error ++ "\n")) ∧
        (∀ e ∈ (main w).trace, e.isOutput = false)) ∧
    (∀ pre e post, (main w).trace = pre ++ e :: post → e.isOutput = true →
      ∃ pkg ip, Event.generate pkg ip ∈ pre ∧ (w.Generate pkg ip).2 = none) := by
  have ht := resolve_trace w
  rcases hres : resolve w with ⟨t, r⟩
  rw [hres] at ht
  simp only at ht
  rcases r with ⟨Directory, Package⟩ | code | _
  · rw [main_of_resolve_ret w t Directory Package hres]
    simp only [Proc.after, List.mem_append]
    constructor
    · intro pkg ip err h he
      rcases h with h | h
      · exact absurd h (not_mem_of_isResolve ht rfl)
      · obtain ⟨h1, h2, h3⟩ := emit_generate_fails w Directory Package pkg ip err h he
        refine ⟨h1, ?_, ?_, ?_⟩
        · simp [exitStatus, h1]
        · rw [List.getLast?_append, h2]; rfl
        · intro e he
          rcases he with he | he
          · exact (Event.isResolve_excludes e (ht e he)).2
          · exact h3 e he
    · intro pre e post h he
      exact outputGuarded_split w _ pre e post
        (outputGuarded_append w t _ ht (emit_outputGuarded w Directory Package)) h he
  · rw [main_of_resolve_exit w t code hres]
    constructor
    · intro pkg ip err h
      exact absurd h (not_mem_of_isResolve ht rfl)
    · intro pre e post h he
      exact outputGuarded_split w _ pre e post (outputGuarded_of_isResolve w t ht) h he
  · rw [main_of_resolve_panic w t hres]
    constructor
    · intro pkg ip err h
      exact absurd h (not_mem_of_isResolve ht rfl)
    · intro pre e post h he
      exact outputGuarded_split w _ pre e post (outputGuarded_of_isResolve w t ht) h he

theorem generator_failure_writes_nothing_witness :
    (main wGenerateFails).result = .exit 255 ∧ exitStatus (main wGenerateFails) = 255 ∧
    (main wGenerateFails).trace.getLast? =
      some (.fprintf .stderr ("Error: " ++ (GoError.new "unsupported signature").Error ++ "\n")) ∧
    (∀ e ∈ (main wGenerateFails).trace, e.isOutput = false) :=
  (generator_failure_writes_nothing wGenerateFails).1 (some ⟨"foo"⟩) "/foo"
    (.new "unsupported signature") (by decide) (by decide)

/-- C4. For every non-empty value of `-pkg` and every value of `-dir`, the import
path passed to the generator is exactly the value of `-pkg`, and the run does not read
any `go.mod` (`guessPackage`, which starts with `os.Open` on `go.mod`, is not called). -/
theorem pkg_flag_enforces_import_path (w : World) (h : w.Package ≠ "") :
    (∀ pkg ip, Event.generate pkg ip ∈ (main w).trace → ip = w.Package) ∧
    (∀ e ∈ (main w).trace, e.isGoMod = false) ∧
    (∀ osOpen readAll modfileParse,
      main { w with Open := osOpen, ReadAll := readAll, ModfileParse := modfileParse }
        = main w) := by
  rw [← and_assoc]
  refine ⟨?_, fun osOpen readAll modfileParse => main_without_goMod w h _ _ _⟩
  have hr := resolve_eq w
  simp only [h, and_false, if_false] at hr
  by_cases hd : w.Directory = ""
  · by_cases hg : w.Getenv "GOPATH" = ""
    · simp only [hd, hg, if_true] at hr
      rw [main_of_resolve_exit w _ _ hr]
      simp [Event.isGoMod]
    · simp only [hd, hg, if_true, if_false] at hr
      rw [main_of_resolve_ret w _ _ _ hr]
      simp only [Proc.after, List.mem_append]
      constructor
      · intro pkg ip hm
        rcases hm with hm | hm
        · simp at hm
        · exact (emit_single_package w _ _ pkg ip hm).1
      · intro e he
        rcases he with he | he
        · simp at he; subst he; rfl
        · exact emit_no_goMod w _ _ e he
  · simp only [hd, if_false] at hr
    rw [main_of_resolve_ret w _ _ _ hr]
    simp only [Proc.after, List.nil_append]
    exact ⟨fun pkg ip hm => (emit_single_package w _ _ pkg ip hm).1, emit_no_goMod w _ _⟩

theorem pkg_flag_enforces_import_path_witness :
    Event.generate (some ⟨"foo"⟩) "example.com/lib" ∈ (main wPkgFlag).trace ∧
    (∀ pkg ip, Event.generate pkg ip ∈ (main wPkgFlag).trace → ip = wPkgFlag.Package) ∧
    (∀ e ∈ (main wPkgFlag).trace, e.isGoMod = false) ∧
    (∀ osOpen readAll modfileParse,
      main { wPkgFlag with Open := osOpen, ReadAll := readAll, ModfileParse := modfileParse }
        = main wPkgFlag) :=
  ⟨by decide, pkg_flag_enforces_import_path wPkgFlag (by decide)⟩

/-- C6. When `-dir` and `-pkg` are both empty, the whole run of `main` is the line
`Error: both -dir and -pkg are not provided` on standard error followed by exit status
255: no `GOPATH` read, no path resolved, no directory parsed, no output.  When one of
them is given the check does not fire: the first action of `main` is reading `GOPATH`,
opening `go.mod` or parsing the directory, not that line. -/
theorem no_flags_exits_first (w : World) :
    (w.Directory = "" ∧ w.Package = "" →
      main w = ⟨[.fprintf .stderr "Error: both -dir and -pkg are not provided\n"], .exit 255⟩ ∧
      exitStatus (main w) = 255) ∧
    (¬(w.Directory = "" ∧ w.Package = "") →
      ((main w).trace.head? = some (.getenv "GOPATH") ∨
       (main w).trace.head? = some (.osOpen (pathJoin [w.Directory, "go.mod"])) ∨
       (main w).trace.head? = some (.parseDir w.Directory)) ∧
      (main w).trace.head? ≠
        some (.fprintf .stderr "Error: both -dir and -pkg are not provided\n")) := by
  constructor
  · intro h
    have hr := resolve_eq w
    simp only [h, and_self, if_true] at hr
    rw [main_of_resolve_exit w _ _ hr]
    simp [exitStatus]
  · intro h
    have key : (main w).trace.head? = some (.getenv "GOPATH") ∨
        (main w).trace.head? = some (.osOpen (pathJoin [w.Directory, "go.mod"])) ∨
        (main w).trace.head? = some (.parseDir w.Directory) := by
      have hr := resolve_eq w
      simp only [h, if_false] at hr
      by_cases hd : w.Directory = ""
      · left
        obtain ⟨rest, hm, -⟩ := main_trace_append w
        rw [hm, hr]
        simp only [hd, if_true]
        split <;> rfl
      · by_cases hp : w.Package = ""
        · right; left
          obtain ⟨rest, hm, -⟩ := main_trace_append w
          obtain ⟨tl, htl⟩ := guessPackage_head w w.Directory
          rw [hm, hr]
          simp only [hd, hp, if_true, if_false]
          split <;> simp [htl]
        · right; right
          simp only [hd, hp, if_false] at hr
          rw [main_of_resolve_ret w _ _ _ hr]
          simpa [Proc.after] using emit_head w w.Directory w.Package
    refine ⟨key, ?_⟩
    rcases key with k | k | k <;> rw [k] <;> simp

theorem no_flags_exits_first_witness :
    (main wNoFlags = ⟨[.fprintf .stderr "Error: both -dir and -pkg are not provided\n"],
        .exit 255⟩ ∧ exitStatus (main wNoFlags) = 255) ∧
    (((main wSample).trace.head? = some (.getenv "GOPATH") ∨
       (main wSample).trace.head? = some (.osOpen (pathJoin [wSample.Directory, "go.mod"])) ∨
       (main wSample).trace.head? = some (.parseDir wSample.Directory)) ∧
      (main wSample).trace.head? ≠
        some (.fprintf .stderr "Error: both -dir and -pkg are not provided\n")) :=
  ⟨(no_flags_exits_first wNoFlags).1 (by decide),
   (no_flags_exits_first wSample).2 (by decide)⟩

/-- In every run of `main`, a write to a file is made on a file that `os.Create`
was called on. -/
theorem main_file_write_created (w : World) :
    ∀ name text, Event.fprintf (.file name) text ∈ (main w).trace →
      Event.osCreate name ∈ (main w).trace := by
  have ht := resolve_trace w
  rcases hres : resolve w with ⟨t, r⟩
  rw [hres] at ht
  simp only at ht
  rcases r with ⟨Directory, Package⟩ | code | _
  · rw [main_of_resolve_ret w t Directory Package hres]
    simp only [Proc.after, List.mem_append]
    intro name text hm
    rcases hm with hm | hm
    · exact absurd hm (not_mem_of_isResolve ht rfl)
    · exact Or.inr (emit_file_write_created w Directory Package name text hm)
  · rw [main_of_resolve_exit w t code hres]
    intro name text hm
    exact absurd hm (not_mem_of_isResolve ht rfl)
  · rw [main_of_resolve_panic w t hres]
    intro name text hm
    exact absurd hm (not_mem_of_isResolve ht rfl)

/-- C5 fails for `-out -`: the flag is provided, yet the generated text is written to
standard output, and no file named `-` is created or written.  The usage text of the
flag, `Output file, or stdout if not provided`, says what the claim says. -/
theorem out_dash_writes_to_stdout :
    wOutDash.Output ≠ "" ∧
    (main wOutDash).result = .ret () ∧
    Event.fprintf .stdout "package foo\n" ∈ (main wOutDash).trace ∧
    Event.osCreate "-" ∉ (main wOutDash).trace ∧
    Event.fprintf (.file "-") "package foo\n" ∉ (main wOutDash).trace := by
  decide

/-- What `main` does with `-out`.  The sink is `outputSink`: standard output when
`-out` is empty or is `-`, the file named by `-out` otherwise.  Every write of `main`
that is not to standard error goes to that sink and its text is exactly the string
returned by the (successful) call to the generator; a run in which `main` returns has
made that write; `os.Create` is called only on the value of `-out`, when that is the
sink; and a file that is written has been created with `os.Create`. -/
theorem out_flag_selects_sink (w : World) :
    (∀ sink text, Event.fprintf sink text ∈ (main w).trace → sink ≠ .stderr →
      sink = outputSink w.Output ∧
      ∃ pkg ip, Event.generate pkg ip ∈ (main w).trace ∧ w.Generate pkg ip = (text, none)) ∧
    ((main w).result = .ret () →
      ∃ pkg ip, Event.generate pkg ip ∈ (main w).trace ∧ (w.Generate pkg ip).2 = none ∧
        Event.fprintf (outputSink w.Output) (w.Generate pkg ip).1 ∈ (main w).trace) ∧
    (∀ name, Event.osCreate name ∈ (main w).trace →
      name = w.Output ∧ outputSink w.Output = .file name) ∧
    (outputSink w.Output = .stdout ↔ w.Output = "" ∨ w.Output = "-") ∧
    (∀ name text, Event.fprintf (.file name) text ∈ (main w).trace →
      Event.osCreate name ∈ (main w).trace) := by
  rw [← and_assoc, ← and_assoc, ← and_assoc]
  refine ⟨?_, main_file_write_created w⟩
  rw [and_assoc, and_assoc]
  have ht := resolve_trace w
  rcases hres : resolve w with ⟨t, r⟩
  rw [hres] at ht
  simp only at ht
  have hsink : outputSink w.Output = .stdout ↔ w.Output = "" ∨ w.Output = "-" := by
    unfold outputSink
    by_cases h1 : w.Output = "" <;> by_cases h2 : w.Output = "-" <;> simp [h1, h2]
  rcases r with ⟨Directory, Package⟩ | code | _
  · rw [main_of_resolve_ret w t Directory Package hres]
    obtain ⟨h1, h2, h3⟩ := emit_output w Directory Package
    simp only [Proc.after, List.mem_append]
    refine ⟨?_, ?_, ?_, hsink⟩
    · intro sink text hm hs
      rcases hm with hm | hm
      · have := ht _ hm
        cases sink <;> simp [Event.isResolve] at this hs
      · obtain ⟨e1, pkg, ip, e2, e3⟩ := h1 sink text hm hs
        exact ⟨e1, pkg, ip, Or.inr e2, e3⟩
    · intro hret
      obtain ⟨pkg, ip, e1, e2, e3⟩ := h2 hret
      exact ⟨pkg, ip, Or.inr e1, e2, Or.inr e3⟩
    · intro name hm
      rcases hm with hm | hm
      · exact absurd hm (not_mem_of_isResolve ht rfl)
      · exact h3 name hm
  · rw [main_of_resolve_exit w t code hres]
    refine ⟨?_, ?_, ?_, hsink⟩
    · intro sink text hm hs
      have := ht _ hm
      cases sink <;> simp [Event.isResolve] at this hs
    · intro hret; simp at hret
    · intro name hm
      exact absurd hm (not_mem_of_isResolve ht rfl)
  · rw [main_of_resolve_panic w t hres]
    refine ⟨?_, ?_, ?_, hsink⟩
    · intro sink text hm hs
      have := ht _ hm
      cases sink <;> simp [Event.isResolve] at this hs
    · intro hret; simp at hret
    · intro name hm
      exact absurd hm (not_mem_of_isResolve ht rfl)

theorem out_flag_selects_sink_witness :
    ∃ pkg ip, Event.generate pkg ip ∈ (main wOutFile).trace ∧
      (wOutFile.Generate pkg ip).2 = none ∧
      Event.fprintf (outputSink wOutFile.Output) (wOutFile.Generate pkg ip).1 ∈
        (main wOutFile).trace :=
  (out_flag_selects_sink wOutFile).2.1 (by decide)

/-- C2 fails on a `go.mod` whose module statement is `module ""`: `guessPackage`
returns the empty string with a nil error, and `main` calls the generator with the
empty import path. -/
theorem empty_module_path_reaches_generator :
    (guessPackage wEmptyModulePath "/work/m").result = .ret ("", none) ∧
    (main wEmptyModulePath).result = .ret () ∧
    Event.generate (some ⟨"foo"⟩) "" ∈ (main wEmptyModulePath).trace := by
  decide

/-- C7 fails on `GOPATH=/go` and `dir = /go/srcfoo`: the directory is not beneath
`/go/src`, yet `guessPackageInGoPath` returns the package path `foo` with a nil
error. -/
theorem guessPackageInGoPath_accepts_sibling :
    wSample.Getenv "GOPATH" = "/go" ∧
    pathJoin ["/go", "src"] = "/go/src" ∧
    strictlyBeneath "/go/srcfoo" (pathJoin ["/go", "src"]) = false ∧
    (guessPackageInGoPath wSample "/go/srcfoo").result = .ret ("foo", none) := by
  decide

/-- C8 fails on `GOPATH=/go` and the import path `foo`: the directory that `main`
derives from `-pkg foo` is `/go/src/foo`, and `guessPackageInGoPath` maps it back to
`/foo`, with a leading slash. -/
theorem guessPackageInGoPath_keeps_separator :
    wSample.Getenv "GOPATH" = "/go" ∧
    pathClean "foo" = "foo" ∧
    pathJoin ["/go", "src", "foo"] = "/go/src/foo" ∧
    (guessPackageInGoPath wSample (pathJoin ["/go", "src", "foo"])).result
      = .ret ("/foo", none) ∧
    (guessPackageInGoPath wSample (pathJoin ["/go", "src", "foo"])).result
      ≠ .ret ("foo", none) := by
  decide

/-- C9 fails on a `go.mod` that is read and parses but has no module statement (its
only line is `go 1.12`): `mod.Module` is nil, `guessPackage` panics on
`mod.Module.Mod.Path` instead of returning a path with a nil error, and `main` ends
with the exit status of a panic, after closing `go.mod` and before parsing the
directory. -/
theorem guessPackage_panics_without_module_statement :
    wNoModuleStatement.Open (pathJoin ["/work/m", "go.mod"]) = .ok () ∧
    wNoModuleStatement.ReadAll (pathJoin ["/work/m", "go.mod"]) = .ok "go 1.12\n" ∧
    wNoModuleStatement.ModfileParse (pathJoin ["/work/m", "go.mod"]) "go 1.12\n"
      = .ok ⟨none⟩ ∧
    (guessPackage wNoModuleStatement "/work/m").result = .panic ∧
    main wNoModuleStatement =
      ⟨[.osOpen "/work/m/go.mod", .readAll "/work/m/go.mod",
        .modfileParse "/work/m/go.mod" "go 1.12\n", .fileClose "/work/m/go.mod"],
       .panic⟩ ∧
    exitStatus (main wNoModuleStatement) = 2 :=
  ⟨rfl, rfl, rfl, by decide, by decide, by decide⟩

/-- The cases of `guessPackage` in which the module statement, if the file is parsed,
is present.  With `modPath = path.Join(dir, "go.mod")`: if `modPath` cannot be opened, or
cannot be read, `guessPackage` ends as `guessPackageInGoPath(dir)` does; if it is read
and `modfile.Parse` answers an error, `guessPackage` returns the empty path and that
error wrapped with the message `module file parse failed`, without reading `GOPATH`;
if it is read and parses to a file whose module statement declares a path,
`guessPackage` returns that path and a nil error, without reading `GOPATH`, whatever
`GOPATH` is. -/
theorem guessPackage_precedence (w : World) (dir : String) :
    ((∃ e, w.Open (pathJoin [dir, "go.mod"]) = .error e) ∨
        (∃ e, w.ReadAll (pathJoin [dir, "go.mod"]) = .error e) →
      (guessPackage w dir).result = (guessPackageInGoPath w dir).result) ∧
    (∀ data err, w.Open (pathJoin [dir, "go.mod"]) = .ok () →
      w.ReadAll (pathJoin [dir, "go.mod"]) = .ok data →
      w.ModfileParse (pathJoin [dir, "go.mod"]) data = .error err →
        (guessPackage w dir).result
          = .ret ("", some (.withMessage err "module file parse failed")) ∧
        (GoError.withMessage err "module file parse failed").Error
          = "module file parse failed: " ++ err.Error ∧
        Event.getenv "GOPATH" ∉ (guessPackage w dir).trace) ∧
    (∀ data mod m, w.Open (pathJoin [dir, "go.mod"]) = .ok () →
      w.ReadAll (pathJoin [dir, "go.mod"]) = .ok data →
      w.ModfileParse (pathJoin [dir, "go.mod"]) data = .ok mod →
      mod.Module = some m →
        (guessPackage w dir).result = .ret (m.Mod.Path, none) ∧
        Event.getenv "GOPATH" ∉ (guessPackage w dir).trace ∧
        ∀ getenv, guessPackage { w with Getenv := getenv } dir = guessPackage w dir) := by
  refine ⟨?_, ?_, ?_⟩
  · intro h
    rw [guessPackage_eq]
    rcases ho : w.Open (pathJoin [dir, "go.mod"]) with e | u
    · simp [Proc.after]
    · rcases h with ⟨e, he⟩ | ⟨e, he⟩
      · rw [ho] at he; cases he
      · simp only [he]
        unfold withDefer
        split <;> simp_all [Proc.after]
  · intro data err ho hr hp
    rw [guessPackage_eq]
    simp [ho, hr, hp, GoError.Error]
  · intro data mod m ho hr hp hm
    refine ⟨?_, ?_, ?_⟩
    · rw [guessPackage_eq]; simp [ho, hr, hp, hm]
    · rw [guessPackage_eq]; simp [ho, hr, hp, hm]
    · intro getenv
      rw [guessPackage_eq, guessPackage_eq]
      simp [ho, hr, hp, hm]

theorem guessPackage_precedence_witness :
    (guessPackage wSample "/go/src/foo").result
        = (guessPackageInGoPath wSample "/go/src/foo").result ∧
    ((guessPackage wGoModBroken "/work/m").result
        = .ret ("", some (.withMessage (.new "go.mod:1: unknown directive: modul")
            "module file parse failed")) ∧
      (GoError.withMessage (.new "go.mod:1: unknown directive: modul")
          "module file parse failed").Error
        = "module file parse failed: " ++
            (GoError.new "go.mod:1: unknown directive: modul").Error ∧
      Event.getenv "GOPATH" ∉ (guessPackage wGoModBroken "/work/m").trace) ∧
    ((guessPackage wGoMod "/work/m").result = .ret ("example.com/m", none) ∧
      Event.getenv "GOPATH" ∉ (guessPackage wGoMod "/work/m").trace ∧
      ∀ getenv, guessPackage { wGoMod with Getenv := getenv } "/work/m"
        = guessPackage wGoMod "/work/m") :=
  ⟨(guessPackage_precedence wSample "/go/src/foo").1 (Or.inl ⟨_, rfl⟩),
   (guessPackage_precedence wGoModBroken "/work/m").2.1 _ _ rfl rfl rfl,
   (guessPackage_precedence wGoMod "/work/m").2.2 _ _ ⟨⟨"example.com/m", ""⟩⟩ rfl rfl rfl rfl⟩

end Goreexport
